import Mathlib

/-!
Verification of the plant-disease backend (preprocessing, disease model,
evaluation utilities) against its natural-language specification.

Each Python function of the repository that the claims touch is shallowly
embedded as an executable Lean definition:
  * pure numeric code uses `ℕ`, `ℤ` and `ℚ` (numpy float behaviour is
    modelled by exact rational arithmetic);
  * Python exceptions (IndexError, ValueError, numpy AxisError, ...) are
    modelled with `Except PyError`;
  * external library primitives (PIL resize, the Keras forward pass,
    sklearn roc_curve/auc) are parameters of the embedding, constrained
    only by their documented contracts.
-/

namespace VerdantAssist

/-- Python exceptions that the embedded code can raise. -/
inductive PyError where
  | indexError
  | valueError
  | axisError
  | attributeError
  | runtimeError
  | invalidState
  deriving DecidableEq, Repr

/-- Turn an optional lookup into a Python indexing operation:
`none` becomes an `IndexError`. -/
def idxE {α : Type} (o : Option α) : Except PyError α :=
  match o with
  | some a => .ok a
  | none => .error .indexError

/-- Boolean success test for an `Except` value. -/
def exceptOk {α : Type} : Except PyError α → Bool
  | .ok _ => true
  | .error _ => false

instance {ε α : Type} [DecidableEq ε] [DecidableEq α] :
    DecidableEq (Except ε α)
  | .ok a, .ok b =>
    if h : a = b then .isTrue (by rw [h])
    else .isFalse (fun hh => h (Except.ok.inj hh))
  | .ok _, .error _ => .isFalse (fun hh => Except.noConfusion hh)
  | .error _, .ok _ => .isFalse (fun hh => Except.noConfusion hh)
  | .error e, .error f =>
    if h : e = f then .isTrue (by rw [h])
    else .isFalse (fun hh => h (Except.error.inj hh))

/-! ## Image preprocessing (`backend/utils/preprocessing.py`) -/

/-- One RGB pixel; PIL stores channels as 8-bit integers. -/
structure RGBPixel where
  r : ℕ
  g : ℕ
  b : ℕ
  deriving DecidableEq, Repr

/-- An in-memory image: a list of pixel rows. -/
structure RGBImage where
  pixels : List (List RGBPixel)
  deriving DecidableEq, Repr

/-- The image is a `w × h` grid of 8-bit RGB pixels (`w` columns, `h` rows),
exactly what `PIL.Image.resize((w, h))` followed by `convert("RGB")`
guarantees for its output. -/
def isGrid (img : RGBImage) (w h : ℕ) : Prop :=
  img.pixels.length = h ∧
    ∀ row ∈ img.pixels, row.length = w ∧
      ∀ p ∈ row, p.r ≤ 255 ∧ p.g ≤ 255 ∧ p.b ≤ 255

instance (img : RGBImage) (w h : ℕ) : Decidable (isGrid img w h) := by
  unfold isGrid; infer_instance

/-- A rank-4 tensor (batch, height, width, channel), entries in ℚ. -/
abbrev Tensor4 : Type := List (List (List (List ℚ)))

/-- Shape predicate for a rank-4 tensor. -/
def hasShape (t : Tensor4) (a b c d : ℕ) : Prop :=
  t.length = a ∧ ∀ x ∈ t, x.length = b ∧
    ∀ y ∈ x, y.length = c ∧ ∀ z ∈ y, z.length = d

/-- All scalar entries of a rank-4 tensor. -/
def entries (t : Tensor4) : List ℚ :=
  (List.flatten (List.flatten t)).flatten

/-- `np.array(image)` on an RGB PIL image: each pixel becomes its
`[r, g, b]` channel triple. -/
def pixelChans (p : RGBPixel) : List ℚ :=
  [(p.r : ℚ), (p.g : ℚ), (p.b : ℚ)]

/-- The preprocessor object (`ImagePreprocessor.__init__`). -/
structure ImagePreprocessor where
  target_size : ℕ × ℕ
  deriving DecidableEq, Repr

/-- `ImagePreprocessor.preprocess_image`.  The PIL resampling step
(`image.resize(self.target_size, LANCZOS)`) is an external library
call and is passed in as the function `resize`; the embedding applies
it, converts the result to a numeric array, rescales by `255.0` when
`normalize` is set, and prepends the batch dimension.  Inputs are taken
to be RGB-mode images, so the `convert('RGB')` branch is the identity. -/
def preprocess_image (self : ImagePreprocessor)
    (resize : RGBImage → ℕ × ℕ → RGBImage)
    (image : RGBImage) (normalize : Bool) : Tensor4 :=
  let resized := resize image self.target_size
  let img_array : List (List (List ℚ)) :=
    resized.pixels.map (fun row => row.map pixelChans)
  let img_array :=
    if normalize then
      img_array.map (fun row => row.map (fun chans => chans.map (· / 255)))
    else img_array
  [img_array]

/-! ## Helper lemmas for preprocessing -/

theorem entries_single (a : List (List (List ℚ))) (v : ℚ) :
    v ∈ entries [a] ↔ ∃ row ∈ a, ∃ chans ∈ row, v ∈ chans := by
  simp only [entries, List.flatten_cons, List.flatten_nil, List.append_nil,
    List.mem_flatten]
  constructor
  · rintro ⟨chans, ⟨row, hrow, hchans⟩, hv⟩
    exact ⟨row, hrow, chans, hchans, hv⟩
  · rintro ⟨row, hrow, chans, hchans, hv⟩
    exact ⟨chans, ⟨row, hrow, hchans⟩, hv⟩

theorem preprocess_image_false_eq (resize : RGBImage → ℕ × ℕ → RGBImage)
    (image : RGBImage) :
    preprocess_image ⟨(224, 224)⟩ resize image false =
      [(resize image (224, 224)).pixels.map
        (fun row => row.map pixelChans)] := rfl

theorem preprocess_image_true_eq (resize : RGBImage → ℕ × ℕ → RGBImage)
    (image : RGBImage) :
    preprocess_image ⟨(224, 224)⟩ resize image true =
      [(resize image (224, 224)).pixels.map
        (fun row => row.map (fun p => (pixelChans p).map (· / 255)))] := by
  simp only [preprocess_image, if_pos]
  congr 1
  rw [List.map_map]
  exact List.map_congr_left fun row _ => by
    rw [Function.comp_apply, List.map_map]
    rfl

theorem hasShape_batch (A : List (List (List ℚ))) (hA : A.length = 224)
    (h2 : ∀ y ∈ A, y.length = 224 ∧ ∀ z ∈ y, z.length = 3) :
    hasShape [A] 1 224 224 3 := by
  refine ⟨rfl, ?_⟩
  intro x hx
  rw [List.mem_singleton] at hx
  subst hx
  exact ⟨hA, h2⟩

theorem preprocess_shape (resize : RGBImage → ℕ × ℕ → RGBImage)
    (hres : ∀ img sz, isGrid (resize img sz) sz.1 sz.2)
    (image : RGBImage) (normalize : Bool) :
    hasShape (preprocess_image ⟨(224, 224)⟩ resize image normalize)
      1 224 224 3 := by
  obtain ⟨hlen, hrows⟩ := hres image (224, 224)
  cases normalize with
  | false =>
    rw [preprocess_image_false_eq]
    refine hasShape_batch _ (by simpa using hlen) ?_
    intro y hy
    simp only [List.mem_map] at hy
    obtain ⟨row, hrow, rfl⟩ := hy
    refine ⟨by simpa using (hrows row hrow).1, ?_⟩
    intro z hz
    simp only [List.mem_map] at hz
    obtain ⟨p, _, rfl⟩ := hz
    rfl
  | true =>
    rw [preprocess_image_true_eq]
    refine hasShape_batch _ (by simpa using hlen) ?_
    intro y hy
    simp only [List.mem_map] at hy
    obtain ⟨row, hrow, rfl⟩ := hy
    refine ⟨by simpa using (hrows row hrow).1, ?_⟩
    intro z hz
    simp only [List.mem_map] at hz
    obtain ⟨p, _, rfl⟩ := hz
    rfl

theorem mem_preprocess_entries
    (resize : RGBImage → ℕ × ℕ → RGBImage) (image : RGBImage)
    (normalize : Bool) (v : ℚ)
    (hv : v ∈ entries (preprocess_image ⟨(224, 224)⟩ resize image normalize)) :
    ∃ p : RGBPixel, (∃ row ∈ (resize image (224, 224)).pixels, p ∈ row) ∧
      ((normalize = true ∧ ∃ c ∈ pixelChans p, v = c / 255) ∨
       (normalize = false ∧ v ∈ pixelChans p)) := by
  cases normalize with
  | false =>
    rw [preprocess_image_false_eq, entries_single] at hv
    obtain ⟨row, hrow, chans, hchans, hvc⟩ := hv
    simp only [List.mem_map] at hrow
    obtain ⟨prow, hprow, rfl⟩ := hrow
    simp only [List.mem_map] at hchans
    obtain ⟨p, hp, rfl⟩ := hchans
    exact ⟨p, ⟨prow, hprow, hp⟩, Or.inr ⟨rfl, hvc⟩⟩
  | true =>
    rw [preprocess_image_true_eq, entries_single] at hv
    obtain ⟨row, hrow, chans, hchans, hvc⟩ := hv
    simp only [List.mem_map] at hrow
    obtain ⟨prow, hprow, rfl⟩ := hrow
    simp only [List.mem_map] at hchans
    obtain ⟨p, hp, rfl⟩ := hchans
    simp only [List.mem_map] at hvc
    obtain ⟨c, hc, rfl⟩ := hvc
    exact ⟨p, ⟨prow, hprow, hp⟩, Or.inl ⟨rfl, c, hc, rfl⟩⟩

/-- C1: for every valid input image (an RGB pixel grid of non-zero width
and height), `preprocess_image` with `normalize = true` returns a tensor
of shape exactly `(1, 224, 224, 3)` all of whose values lie in `[0, 1]`.
The PIL `resize` primitive is any function honouring PIL's contract of
producing a `target_size` grid of 8-bit RGB pixels. -/
theorem preprocess_image_normalized_shape_and_range
    (resize : RGBImage → ℕ × ℕ → RGBImage)
    (hres : ∀ img sz, isGrid (resize img sz) sz.1 sz.2)
    (image : RGBImage) (w h : ℕ)
    (himg : isGrid image w h) (hw : 0 < w) (hh : 0 < h) :
    hasShape (preprocess_image ⟨(224, 224)⟩ resize image true) 1 224 224 3 ∧
    ∀ v ∈ entries (preprocess_image ⟨(224, 224)⟩ resize image true),
      0 ≤ v ∧ v ≤ 1 := by
  refine ⟨preprocess_shape resize hres image true, ?_⟩
  intro v hv
  obtain ⟨p, ⟨row, hrow, hp⟩, hcase⟩ :=
    mem_preprocess_entries resize image true v hv
  rcases hcase with ⟨-, c, hc, rfl⟩ | ⟨hfalse, -⟩
  · obtain ⟨-, hpix⟩ := hres image (224, 224)
    obtain ⟨-, hbound⟩ := hpix row hrow
    obtain ⟨hr, hg, hb⟩ := hbound p hp
    have hc255 : 0 ≤ c ∧ c ≤ 255 := by
      simp only [pixelChans, List.mem_cons, List.not_mem_nil, or_false] at hc
      rcases hc with rfl | rfl | rfl
      · exact ⟨by positivity, by exact_mod_cast hr⟩
      · exact ⟨by positivity, by exact_mod_cast hg⟩
      · exact ⟨by positivity, by exact_mod_cast hb⟩
    constructor
    · have := hc255.1
      positivity
    · rw [div_le_one (by norm_num)]
      exact hc255.2
  · exact absurd hfalse (by simp)

/-- C10: with `normalize = false`, `preprocess_image` skips the division
by 255 and only adds the batch dimension: the result is the singleton
batch of the raw resized channel array, its shape is `(1, 224, 224, 3)`,
and every entry is an integer pixel value in `[0, 255]`. -/
theorem preprocess_image_raw_shape_and_values
    (resize : RGBImage → ℕ × ℕ → RGBImage)
    (hres : ∀ img sz, isGrid (resize img sz) sz.1 sz.2)
    (image : RGBImage) (w h : ℕ)
    (himg : isGrid image w h) (hw : 0 < w) (hh : 0 < h) :
    preprocess_image ⟨(224, 224)⟩ resize image false =
      [(resize image (224, 224)).pixels.map (fun row => row.map pixelChans)] ∧
    hasShape (preprocess_image ⟨(224, 224)⟩ resize image false) 1 224 224 3 ∧
    ∀ v ∈ entries (preprocess_image ⟨(224, 224)⟩ resize image false),
      ∃ c : ℕ, v = (c : ℚ) ∧ c ≤ 255 := by
  refine ⟨rfl, preprocess_shape resize hres image false, ?_⟩
  intro v hv
  obtain ⟨p, ⟨row, hrow, hp⟩, hcase⟩ :=
    mem_preprocess_entries resize image false v hv
  rcases hcase with ⟨htrue, -⟩ | ⟨-, hc⟩
  · exact absurd htrue (by simp)
  · obtain ⟨-, hpix⟩ := hres image (224, 224)
    obtain ⟨-, hbound⟩ := hpix row hrow
    obtain ⟨hr, hg, hb⟩ := hbound p hp
    simp only [pixelChans, List.mem_cons, List.not_mem_nil, or_false] at hc
    rcases hc with rfl | rfl | rfl
    · exact ⟨p.r, rfl, hr⟩
    · exact ⟨p.g, rfl, hg⟩
    · exact ⟨p.b, rfl, hb⟩

/-- A concrete stand-in for PIL resize used by witnesses: it produces the
requested grid filled with a fixed pixel. -/
def demoResize : RGBImage → ℕ × ℕ → RGBImage :=
  fun _ sz => ⟨List.replicate sz.2 (List.replicate sz.1 ⟨0, 128, 255⟩)⟩

theorem demoResize_grid :
    ∀ img sz, isGrid (demoResize img sz) sz.1 sz.2 := by
  intro img sz
  refine ⟨List.length_replicate _ _, ?_⟩
  intro row hrow
  rw [List.eq_of_mem_replicate hrow]
  refine ⟨List.length_replicate _ _, ?_⟩
  intro p hp
  rw [List.eq_of_mem_replicate hp]
  exact ⟨by norm_num, by norm_num, by norm_num⟩

/-- A concrete 1×1 RGB input image used by witnesses. -/
def demoImage : RGBImage := ⟨[[⟨10, 20, 30⟩]]⟩

/-- Witness for C1 at a concrete image and resize function. -/
theorem preprocess_image_normalized_witness :
    isGrid demoImage 1 1 ∧
    (hasShape (preprocess_image ⟨(224, 224)⟩ demoResize demoImage true)
        1 224 224 3 ∧
      ∀ v ∈ entries (preprocess_image ⟨(224, 224)⟩ demoResize demoImage true),
        0 ≤ v ∧ v ≤ 1) :=
  ⟨by decide,
    preprocess_image_normalized_shape_and_range demoResize demoResize_grid
      demoImage 1 1 (by decide) (by decide) (by decide)⟩

/-- Witness for C10 at a concrete image and resize function. -/
theorem preprocess_image_raw_witness :
    isGrid demoImage 1 1 ∧
    (preprocess_image ⟨(224, 224)⟩ demoResize demoImage false =
        [(demoResize demoImage (224, 224)).pixels.map
          (fun row => row.map pixelChans)] ∧
      hasShape (preprocess_image ⟨(224, 224)⟩ demoResize demoImage false)
        1 224 224 3 ∧
      ∀ v ∈ entries (preprocess_image ⟨(224, 224)⟩ demoResize demoImage false),
        ∃ c : ℕ, v = (c : ℚ) ∧ c ≤ 255) :=
  ⟨by decide,
    preprocess_image_raw_shape_and_values demoResize demoResize_grid
      demoImage 1 1 (by decide) (by decide) (by decide)⟩

/-! ## numpy argmax

`np.argmax` returns the index of the first occurrence of the maximum
value of a one-dimensional array. -/

/-- Maximum of `x :: xs`, folded left as numpy reduces. -/
def listMax (x : ℚ) (xs : List ℚ) : ℚ := xs.foldl max x

/-- `np.argmax` on a one-dimensional array: index of the first
occurrence of the maximum (numpy's documented tie-break). -/
def npArgmax : List ℚ → ℕ
  | [] => 0
  | x :: xs => (x :: xs).findIdx (fun y => decide (y = listMax x xs))

theorem listMax_cons (x a : ℚ) (l : List ℚ) :
    listMax x (a :: l) = listMax (max x a) l := rfl

theorem le_listMax_self (x : ℚ) (l : List ℚ) : x ≤ listMax x l := by
  induction l generalizing x with
  | nil => exact le_refl x
  | cons a l ih =>
    rw [listMax_cons]
    exact le_trans (le_max_left x a) (ih (max x a))

theorem le_listMax_of_mem {y : ℚ} {l : List ℚ} (x : ℚ) (h : y ∈ l) :
    y ≤ listMax x l := by
  induction l generalizing x with
  | nil => cases h
  | cons a l ih =>
    rw [listMax_cons]
    rcases List.mem_cons.mp h with rfl | h'
    · exact le_trans (le_max_right x y) (le_listMax_self _ l)
    · exact ih (max x a) h'

theorem listMax_mem (x : ℚ) (l : List ℚ) :
    listMax x l ∈ x :: l := by
  induction l generalizing x with
  | nil => exact List.mem_singleton.mpr rfl
  | cons a l ih =>
    rw [listMax_cons]
    rcases List.mem_cons.mp (ih (max x a)) with h | h
    · rcases max_choice x a with hx | ha
      · exact List.mem_cons.mpr (Or.inl (h.trans hx))
      · exact List.mem_cons.mpr (Or.inr (List.mem_cons.mpr
          (Or.inl (h.trans ha))))
    · exact List.mem_cons.mpr (Or.inr (List.mem_cons.mpr (Or.inr h)))

theorem npArgmax_cons (x : ℚ) (xs : List ℚ) :
    npArgmax (x :: xs) =
      (x :: xs).findIdx (fun y => decide (y = listMax x xs)) := rfl

theorem npArgmax_lt_length (x : ℚ) (xs : List ℚ) :
    npArgmax (x :: xs) < (x :: xs).length := by
  rw [npArgmax_cons]
  apply List.findIdx_lt_length_of_exists
  exact ⟨listMax x xs, listMax_mem x xs, by simp⟩

theorem getElem_npArgmax (x : ℚ) (xs : List ℚ)
    (h : npArgmax (x :: xs) < (x :: xs).length) :
    (x :: xs)[npArgmax (x :: xs)] = listMax x xs := by
  have h' : (x :: xs).findIdx (fun y => decide (y = listMax x xs)) <
      (x :: xs).length := by rw [← npArgmax_cons]; exact h
  have hdec := List.findIdx_getElem (w := h')
  have heq := of_decide_eq_true hdec
  simp only [npArgmax_cons]
  exact heq

theorem getElem_le_npArgmax (x : ℚ) (xs : List ℚ) (j : ℕ)
    (hj : j < (x :: xs).length)
    (h : npArgmax (x :: xs) < (x :: xs).length) :
    (x :: xs)[j] ≤ (x :: xs)[npArgmax (x :: xs)] := by
  rw [getElem_npArgmax x xs h]
  rcases List.mem_cons.mp ((x :: xs).getElem_mem hj) with hx | hm
  · rw [hx]; exact le_listMax_self x xs
  · exact le_listMax_of_mem x hm

theorem npArgmax_first (x : ℚ) (xs : List ℚ) (j : ℕ)
    (hj : j < (x :: xs).length)
    (h : npArgmax (x :: xs) < (x :: xs).length)
    (heq : (x :: xs)[j] = (x :: xs)[npArgmax (x :: xs)]) :
    npArgmax (x :: xs) ≤ j := by
  by_contra hlt
  push_neg at hlt
  rw [npArgmax_cons] at hlt
  have hne := List.not_of_lt_findIdx hlt
  rw [getElem_npArgmax x xs h] at heq
  simp only [decide_eq_false_iff_not] at hne
  exact hne heq

/-! ## Disease model prediction (`backend/disease_model.py`) -/

/-- `PlantDiseaseModel.predict_disease`:
```
prediction = self.model.predict(image_array)
predicted_class_idx = np.argmax(prediction[0])
confidence = float(prediction[0][predicted_class_idx])
predicted_class = class_names[predicted_class_idx]
return predicted_class, confidence, prediction[0]
```
The Keras forward pass `self.model.predict` is external and passed in as
`predictFn` (it returns a batch of probability vectors).  Out-of-range
indexing is modelled as `IndexError` and `np.argmax` of an empty vector
as `ValueError`. -/
def predict_disease (predictFn : Tensor4 → List (List ℚ))
    (image_array : Tensor4) (class_names : List String) :
    Except PyError (String × ℚ × List ℚ) := do
  let prediction := predictFn image_array
  let p0 ← idxE prediction[0]?
  if p0 = [] then throw .valueError
  else
    let predicted_class_idx := npArgmax p0
    let confidence ← idxE p0[predicted_class_idx]?
    let predicted_class ← idxE class_names[predicted_class_idx]?
    pure (predicted_class, confidence, p0)

/-- C2: whenever the forward pass produces a (non-empty) probability
vector `p0` and the class list covers its argmax index,
`predict_disease` returns the class label at the argmax index, a
confidence equal to that entry of `p0` itself (never re-normalised), and
the full vector; the argmax index carries the maximum value and any tie
is resolved to the lowest index. -/
theorem predict_disease_argmax_spec
    (predictFn : Tensor4 → List (List ℚ)) (image_array : Tensor4)
    (class_names : List String) (p0 : List ℚ)
    (hp : (predictFn image_array)[0]? = some p0) (hne : p0 ≠ [])
    (hcn : npArgmax p0 < class_names.length) :
    ∃ hidx : npArgmax p0 < p0.length,
      predict_disease predictFn image_array class_names =
        .ok (class_names[npArgmax p0], p0[npArgmax p0], p0) ∧
      (∀ j, (hj : j < p0.length) → p0[j] ≤ p0[npArgmax p0]) ∧
      (∀ j, (hj : j < p0.length) → p0[j] = p0[npArgmax p0] →
        npArgmax p0 ≤ j) := by
  obtain ⟨x, xs, rfl⟩ := List.exists_cons_of_ne_nil hne
  have hidx : npArgmax (x :: xs) < (x :: xs).length := npArgmax_lt_length x xs
  have bindok : ∀ {α β : Type} (v : α) (f : α → Except PyError β),
      (Except.ok v >>= f) = f v := fun _ _ => rfl
  refine ⟨hidx, ?_, ?_, ?_⟩
  · simp only [predict_disease, hp, idxE, bindok, if_neg hne,
      List.getElem?_eq_getElem hidx, List.getElem?_eq_getElem hcn]
    rfl
  · exact fun j hj => getElem_le_npArgmax x xs j hj hidx
  · exact fun j hj heq => npArgmax_first x xs j hj hidx heq

/-- A concrete forward pass used by the C2 witness: it ignores the input
and returns one score vector with an interior tie. -/
def demoPredictFn : Tensor4 → List (List ℚ) :=
  fun _ => [[1, 3, 3, 1]]

/-- Witness for C2 on a concrete forward pass, tensor and class list. -/
theorem predict_disease_argmax_witness :
    (demoPredictFn [])[0]? = some [1, 3, 3, 1] ∧
    ([1, 3, 3, 1] : List ℚ) ≠ [] ∧
    npArgmax [1, 3, 3, 1] < (["a", "b", "c", "d"] : List String).length ∧
    ∃ hidx : npArgmax [1, 3, 3, 1] <
        ([1, 3, 3, 1] : List ℚ).length,
      predict_disease demoPredictFn [] ["a", "b", "c", "d"] =
        .ok (["a", "b", "c", "d"][npArgmax [1, 3, 3, 1]],
          ([1, 3, 3, 1] : List ℚ)[npArgmax [1, 3, 3, 1]],
          [1, 3, 3, 1]) ∧
      (∀ j, (hj : j < ([1, 3, 3, 1] : List ℚ).length) →
        ([1, 3, 3, 1] : List ℚ)[j] ≤
          ([1, 3, 3, 1] : List ℚ)[npArgmax [1, 3, 3, 1]]) ∧
      (∀ j, (hj : j < ([1, 3, 3, 1] : List ℚ).length) →
        ([1, 3, 3, 1] : List ℚ)[j] =
          ([1, 3, 3, 1] : List ℚ)[npArgmax [1, 3, 3, 1]] →
        npArgmax [1, 3, 3, 1] ≤ j) :=
  ⟨by decide, by decide, by decide,
    predict_disease_argmax_spec demoPredictFn [] ["a", "b", "c", "d"]
      [1, 3, 3, 1] (by decide) (by decide) (by decide)⟩

/-! ## Disease model build / compile / fine-tune state
(`backend/disease_model.py`)

`PlantDiseaseModel` keeps `self.model` (None before `build_model`) and
`self.history` (None before `train_initial`).  The embedding records the
compiled optimizer configuration and the per-layer trainable flags of
the backbone; the actual fitting a Keras call with no bearing on the
claims is not modelled beyond its state effects. -/

/-- The optimizer/loss configuration installed by `model.compile`. -/
structure CompileConfig where
  learning_rate : ℚ
  loss : String
  metrics : List String
  deriving DecidableEq, Repr

/-- Metrics list passed to every `compile` call in the source. -/
def stdMetrics : List String := ["accuracy", "top_3_accuracy"]

/-- Configuration installed by `compile_model(learning_rate)`. -/
def compiledCfg (lr : ℚ) : CompileConfig :=
  { learning_rate := lr
    loss := "categorical_crossentropy"
    metrics := stdMetrics }

/-- State of a `PlantDiseaseModel` instance. -/
structure PlantDiseaseModelState where
  num_classes : ℕ
  hasModel : Bool
  base_layers_trainable : List Bool
  compileCfg : Option CompileConfig
  hasHistory : Bool
  deriving DecidableEq, Repr

/-- `PlantDiseaseModel.__init__(num_classes)`: `self.model = None`,
`self.history = None`. -/
def initModel (num_classes : ℕ) : PlantDiseaseModelState :=
  { num_classes := num_classes
    hasModel := false
    base_layers_trainable := []
    compileCfg := none
    hasHistory := false }

/-- `PlantDiseaseModel.build_model`: loads the EfficientNetB0 backbone
(`num_base_layers` layers, an external constant), freezes it
(`base_model.trainable = False`) and attaches the classification head. -/
def build_model (s : PlantDiseaseModelState) (num_base_layers : ℕ) :
    PlantDiseaseModelState :=
  { s with
    hasModel := true
    base_layers_trainable := List.replicate num_base_layers false }

/-- Default of the `learning_rate` parameter of `compile_model`. -/
def compileDefaultLR : ℚ := 1/1000

/-- `PlantDiseaseModel.compile_model(learning_rate=0.001)`: rebinding the
Adam optimizer at the given rate; touching `self.model` while it is
`None` is an `AttributeError`. -/
def compile_model (s : PlantDiseaseModelState) (learning_rate : ℚ) :
    Except PyError PlantDiseaseModelState :=
  if s.hasModel then
    .ok { s with compileCfg := some (compiledCfg learning_rate) }
  else .error .attributeError

/-- `PlantDiseaseModel.train_initial`: fit with the frozen backbone; a
Keras `fit` before `compile` is a `RuntimeError`; sets `self.history`. -/
def train_initial (s : PlantDiseaseModelState) :
    Except PyError PlantDiseaseModelState :=
  if s.hasModel then
    if s.compileCfg.isSome then .ok { s with hasHistory := true }
    else .error .runtimeError
  else .error .attributeError

/-- Trainable flags after `base_model.trainable = True` followed by
`for layer in base_model.layers[:-unfreeze_layers]: layer.trainable =
False` — Python slice semantics: `layers[:-k]` is the first `n - k`
layers when `0 < k` and the empty list when `k = 0`. -/
def unfreezeFlags (n k : ℕ) : List Bool :=
  (List.range n).map (fun j => !(decide (0 < k) && decide (j < n - k)))

/-- `PlantDiseaseModel.fine_tune(train_data, val_data, epochs,
unfreeze_layers=50)`: unfreezes the top layers and recompiles with
`Adam(learning_rate=0.0001/10)` — a fixed constant, not derived from any
earlier `compile_model` argument — then fits.  No training-state check of
any kind appears in the source. -/
def fine_tune (s : PlantDiseaseModelState) (unfreeze_layers : ℕ) :
    Except PyError PlantDiseaseModelState :=
  if s.hasModel then
    .ok { s with
      base_layers_trainable :=
        unfreezeFlags s.base_layers_trainable.length unfreeze_layers
      compileCfg := some (compiledCfg ((1/10000)/10)) }
  else .error .attributeError

/-- Learning rate recorded by the compile step of a model-state
transition, if the transition succeeded and a configuration is bound. -/
def lrAfter (e : Except PyError PlantDiseaseModelState) : Option ℚ :=
  match e with
  | .ok s => s.compileCfg.map (fun c => c.learning_rate)
  | .error _ => none

/-- C4 counterexample: compiling with the initial learning rate `1/100`
and then fine-tuning leaves the fixed rate `1e-5`, which is not 100
times smaller than `1/100`. -/
theorem fine_tune_lr_not_hundredth_of_compiled :
    lrAfter (compile_model (build_model (initModel 38) 238) (1/100) >>=
      fun s => fine_tune s 50) = some ((1/10000)/10) ∧
    ¬ ((1/10000 : ℚ)/10 = (1/100)/100) := by
  constructor
  · rfl
  · norm_num

/-- C4 (amended): `fine_tune` always recompiles with the fixed learning
rate `0.0001/10 = 1e-5`; this equals the *default* initial rate of
`compile_model` (`0.001`) divided by 100, but does not depend on the
learning rate actually passed to `compile_model`. -/
theorem fine_tune_fixed_lr (s : PlantDiseaseModelState)
    (unfreeze_layers : ℕ) (h : s.hasModel = true) :
    lrAfter (fine_tune s unfreeze_layers) = some ((1/10000)/10) ∧
    ((1/10000 : ℚ)/10 = compileDefaultLR / 100) := by
  constructor
  · simp [fine_tune, h, lrAfter, compiledCfg]
  · rw [compileDefaultLR]; norm_num

/-- Witness for the amended C4 at a concrete built model state. -/
theorem fine_tune_fixed_lr_witness :
    (build_model (initModel 38) 238).hasModel = true ∧
    (lrAfter (fine_tune (build_model (initModel 38) 238) 50) =
        some ((1/10000)/10) ∧
      ((1/10000 : ℚ)/10 = compileDefaultLR / 100)) :=
  ⟨by decide, fine_tune_fixed_lr (build_model (initModel 38) 238) 50 rfl⟩

/-- A model that has been built and compiled but never trained:
`hasHistory` is still `false`. -/
def builtCompiledUntrained : PlantDiseaseModelState :=
  { num_classes := 38
    hasModel := true
    base_layers_trainable := List.replicate 238 false
    compileCfg := some (compiledCfg (1/1000))
    hasHistory := false }

/-- C5 counterexample: on a built-and-compiled but untrained model,
`fine_tune` does not fail with the `InvalidStateError` the specification
promises — it succeeds. -/
theorem fine_tune_untrained_no_invalid_state :
    builtCompiledUntrained.hasHistory = false ∧
    builtCompiledUntrained.compileCfg.isSome = true ∧
    fine_tune builtCompiledUntrained 50 ≠ .error .invalidState ∧
    exceptOk (fine_tune builtCompiledUntrained 50) = true := by
  refine ⟨rfl, rfl, ?_, rfl⟩
  intro h
  exact Except.noConfusion h

/-- C5 (amended): `fine_tune` performs no training-state check at all:
called on any model with `self.model` set — trained or not — it
proceeds (unfreezes layers and recompiles) and never raises an
`InvalidStateError`. -/
theorem fine_tune_no_state_check (s : PlantDiseaseModelState)
    (unfreeze_layers : ℕ) (hbuilt : s.hasModel = true)
    (huntrained : s.hasHistory = false) :
    exceptOk (fine_tune s unfreeze_layers) = true ∧
    fine_tune s unfreeze_layers ≠ .error .invalidState := by
  constructor
  · simp [fine_tune, hbuilt, exceptOk]
  · intro h
    simp [fine_tune, hbuilt] at h

/-- Witness for the amended C5 at a concrete untrained model state. -/
theorem fine_tune_no_state_check_witness :
    builtCompiledUntrained.hasModel = true ∧
    builtCompiledUntrained.hasHistory = false ∧
    (exceptOk (fine_tune builtCompiledUntrained 50) = true ∧
      fine_tune builtCompiledUntrained 50 ≠ .error .invalidState) :=
  ⟨rfl, rfl, fine_tune_no_state_check builtCompiledUntrained 50 rfl rfl⟩

/-! ## Evaluation utilities (`backend/utils/evaluation.py`) -/

/-- The label set inferred by `sklearn.metrics.confusion_matrix` when no
`labels` argument is given: the sorted distinct values occurring in
`y_true` or `y_pred`.  For natural-number labels this is the ascending
enumeration of the values present. -/
def presentLabels (y_true y_pred : List ℕ) : List ℕ :=
  (List.range ((y_true ++ y_pred).foldr max 0 + 1)).filter
    (fun i => decide (i ∈ y_true ++ y_pred))

/-- `sklearn.metrics.confusion_matrix(y_true, y_pred)`: entry `(i, j)`
counts samples with true label `labels[i]` and predicted label
`labels[j]`; mismatched input lengths raise a `ValueError`. -/
def confusion_matrix (y_true y_pred : List ℕ) :
    Except PyError (List (List ℕ)) :=
  if y_true.length = y_pred.length then
    let labels := presentLabels y_true y_pred
    let pairs := y_true.zip y_pred
    .ok (labels.map (fun t => labels.map (fun p =>
      pairs.countP (fun q => decide (q.1 = t) && decide (q.2 = p)))))
  else .error .valueError

/-- The per-class record built by
`ModelEvaluator.calculate_per_class_metrics` (the Python dict keys are
'precision', 'recall', 'f1_score', 'specificity', 'support'; the second
is named `recall_score` here only because `recall` is reserved). -/
structure ClassMetrics where
  precision : ℚ
  recall_score : ℚ
  f1_score : ℚ
  specificity : ℚ
  support : ℕ
  deriving DecidableEq, Repr

/-- Loop body of `calculate_per_class_metrics` for class index `i`:
```
tp = cm[i, i]
fp = cm[:, i].sum() - tp
fn = cm[i, :].sum() - tp
tn = cm.sum() - tp - fp - fn
precision = tp / (tp + fp) if (tp + fp) > 0 else 0
...
```
Out-of-range indexing into `cm` raises `IndexError` exactly as numpy
does. -/
def perClassEntry (cm : List (List ℕ)) (total : ℤ) (i : ℕ) :
    Except PyError ClassMetrics := do
  let row ← idxE cm[i]?
  let tpN ← idxE row[i]?
  let col : List ℕ ← cm.mapM (fun r => idxE r[i]?)
  let tp : ℤ := (tpN : ℤ)
  let fp : ℤ := (col.sum : ℤ) - tp
  let fn : ℤ := (row.sum : ℤ) - tp
  let tn : ℤ := total - tp - fp - fn
  let precision : ℚ := if 0 < tp + fp then (tp : ℚ) / ((tp : ℚ) + (fp : ℚ))
    else 0
  let recall_score : ℚ := if 0 < tp + fn
    then (tp : ℚ) / ((tp : ℚ) + (fn : ℚ)) else 0
  let f1 : ℚ := if 0 < precision + recall_score
    then 2 * (precision * recall_score) / (precision + recall_score) else 0
  let specificity : ℚ := if 0 < tn + fp
    then (tn : ℚ) / ((tn : ℚ) + (fp : ℚ)) else 0
  pure { precision := precision
         recall_score := recall_score
         f1_score := f1
         specificity := specificity
         support := row.sum }

/-- `ModelEvaluator.calculate_per_class_metrics(y_true, y_pred)` for
index-encoded labels: builds the confusion matrix and iterates over
`enumerate(self.class_names)`. -/
def calculate_per_class_metrics (class_names : List String)
    (y_true y_pred : List ℕ) :
    Except PyError (List (String × ClassMetrics)) := do
  let cm ← confusion_matrix y_true y_pred
  let total : ℤ := ((cm.map List.sum).sum : ℕ)
  class_names.enum.mapM (fun ic => do
    let m ← perClassEntry cm total ic.1
    pure (ic.2, m))

/-- True-positive count of class `i`: pairs predicted `i` with true
label `i`. -/
def countTP (y_true y_pred : List ℕ) (i : ℕ) : ℕ :=
  (y_true.zip y_pred).countP (fun q => decide (q.1 = i) && decide (q.2 = i))

/-- Number of samples whose true label is `i`. -/
def countTrueCls (y_true y_pred : List ℕ) (i : ℕ) : ℕ :=
  (y_true.zip y_pred).countP (fun q => decide (q.1 = i))

/-- Number of samples predicted as class `i`. -/
def countPredCls (y_true y_pred : List ℕ) (i : ℕ) : ℕ :=
  (y_true.zip y_pred).countP (fun q => decide (q.2 = i))

/-- Closed form of the per-class metric record in terms of the sample
counts, used to characterise `calculate_per_class_metrics`. -/
def metricsAt (y_true y_pred : List ℕ) (i : ℕ) : ClassMetrics :=
  let tp : ℤ := (countTP y_true y_pred i : ℤ)
  let fp : ℤ := (countPredCls y_true y_pred i : ℤ) - tp
  let fn : ℤ := (countTrueCls y_true y_pred i : ℤ) - tp
  let tn : ℤ := ((y_true.zip y_pred).length : ℤ) - tp - fp - fn
  { precision := if 0 < tp + fp then (tp : ℚ) / ((tp : ℚ) + (fp : ℚ))
      else 0
    recall_score := if 0 < tp + fn then (tp : ℚ) / ((tp : ℚ) + (fn : ℚ))
      else 0
    f1_score :=
      let precision : ℚ := if 0 < tp + fp
        then (tp : ℚ) / ((tp : ℚ) + (fp : ℚ)) else 0
      let recall_score : ℚ := if 0 < tp + fn
        then (tp : ℚ) / ((tp : ℚ) + (fn : ℚ)) else 0
      if 0 < precision + recall_score
        then 2 * (precision * recall_score) / (precision + recall_score)
      else 0
    specificity := if 0 < tn + fp
      then (tn : ℚ) / ((tn : ℚ) + (fp : ℚ)) else 0
    support := countTrueCls y_true y_pred i }

/-! ## Confusion-matrix counting lemmas -/

/-- Count of samples with true label `t` and predicted label `p` (the
generic confusion-matrix cell). -/
def count2 (y_true y_pred : List ℕ) (t p : ℕ) : ℕ :=
  (y_true.zip y_pred).countP (fun q => decide (q.1 = t) && decide (q.2 = p))

/-- The matrix value produced by a successful `confusion_matrix` call. -/
def cmVal (y_true y_pred : List ℕ) : List (List ℕ) :=
  (presentLabels y_true y_pred).map (fun t =>
    (presentLabels y_true y_pred).map (fun p => count2 y_true y_pred t p))

theorem confusion_matrix_ok (y_true y_pred : List ℕ)
    (hlen : y_true.length = y_pred.length) :
    confusion_matrix y_true y_pred = .ok (cmVal y_true y_pred) := by
  unfold confusion_matrix
  rw [if_pos hlen]
  rfl

theorem le_foldr_max (l : List ℕ) : ∀ v ∈ l, v ≤ l.foldr max 0 := by
  induction l with
  | nil => intro v hv; cases hv
  | cons a l ih =>
    intro v hv
    rcases List.mem_cons.mp hv with rfl | hv'
    · exact le_max_left _ _
    · exact le_trans (ih v hv') (le_max_right _ _)

theorem mem_presentLabels (y_true y_pred : List ℕ) (v : ℕ) :
    v ∈ presentLabels y_true y_pred ↔ v ∈ y_true ++ y_pred := by
  unfold presentLabels
  simp only [List.mem_filter, List.mem_range, decide_eq_true_eq]
  constructor
  · exact fun h => h.2
  · intro hv
    exact ⟨Nat.lt_succ_of_le (le_foldr_max _ v hv), hv⟩

theorem presentLabels_nodup (y_true y_pred : List ℕ) :
    (presentLabels y_true y_pred).Nodup :=
  (List.nodup_range _).filter _

theorem presentLabels_prefix (y_true y_pred : List ℕ) (n : ℕ)
    (hn : 0 < n) (hcover : ∀ j < n, j ∈ y_true ++ y_pred) :
    ∃ rest, presentLabels y_true y_pred = List.range n ++ rest := by
  unfold presentLabels
  have hM : n - 1 ≤ (y_true ++ y_pred).foldr max 0 :=
    le_foldr_max _ (n - 1) (hcover (n - 1) (by omega))
  have hsplit : (y_true ++ y_pred).foldr max 0 + 1 =
      n + ((y_true ++ y_pred).foldr max 0 + 1 - n) := by omega
  rw [hsplit, List.range_add, List.filter_append]
  refine ⟨((List.range ((y_true ++ y_pred).foldr max 0 + 1 - n)).map
    (fun x => n + x)).filter (fun i => decide (i ∈ y_true ++ y_pred)), ?_⟩
  congr 1
  rw [List.filter_eq_self]
  intro a ha
  rw [List.mem_range] at ha
  exact decide_eq_true (hcover a ha)

theorem getElem?_presentLabels (y_true y_pred : List ℕ) (n i : ℕ)
    (hn : 0 < n) (hcover : ∀ j < n, j ∈ y_true ++ y_pred) (hi : i < n) :
    (presentLabels y_true y_pred)[i]? = some i := by
  obtain ⟨rest, heq⟩ := presentLabels_prefix y_true y_pred n hn hcover
  rw [heq, List.getElem?_append_left (by simpa using hi),
    List.getElem?_range hi]

theorem mapM_ok_of_forall {α β : Type} (f : α → Except PyError β)
    (g : α → β) (l : List α) (h : ∀ x ∈ l, f x = .ok (g x)) :
    l.mapM f = .ok (l.map g) := by
  induction l with
  | nil => rfl
  | cons a l ih =>
    rw [List.mapM_cons, h a (List.mem_cons_self a l),
      ih (fun x hx => h x (List.mem_cons_of_mem a hx))]
    rfl

theorem mapM_map {α γ β : Type} (l : List α) (F : α → γ)
    (f : γ → Except PyError β) :
    (l.map F).mapM f = l.mapM (fun x => f (F x)) := by
  induction l with
  | nil => rfl
  | cons a l ih =>
    rw [List.map_cons, List.mapM_cons, List.mapM_cons, ih]

theorem sum_map_ite_eq_zero (ls : List ℕ) (x : ℕ) (hx : x ∉ ls) :
    (ls.map (fun p => if x = p then 1 else 0)).sum = 0 := by
  induction ls with
  | nil => rfl
  | cons b ls ih =>
    have hxb : x ≠ b := fun h => hx (h ▸ List.mem_cons_self b ls)
    rw [List.map_cons, List.sum_cons, if_neg hxb,
      ih (fun h => hx (List.mem_cons_of_mem b h))]

theorem sum_map_ite_eq_one (ls : List ℕ) (x : ℕ) (hnd : ls.Nodup)
    (hx : x ∈ ls) :
    (ls.map (fun p => if x = p then 1 else 0)).sum = 1 := by
  induction ls with
  | nil => cases hx
  | cons b ls ih =>
    rw [List.nodup_cons] at hnd
    rcases List.mem_cons.mp hx with rfl | hx'
    · rw [List.map_cons, List.sum_cons, if_pos rfl,
        sum_map_ite_eq_zero ls x hnd.1]
    · have hxb : x ≠ b := fun h => hnd.1 (h ▸ hx')
      rw [List.map_cons, List.sum_cons, if_neg hxb, ih hnd.2 hx']

theorem sum_map_add_nat (ls : List ℕ) (f g : ℕ → ℕ) :
    (ls.map (fun p => f p + g p)).sum = (ls.map f).sum + (ls.map g).sum := by
  induction ls with
  | nil => rfl
  | cons b ls ih =>
    simp only [List.map_cons, List.sum_cons, ih]
    omega

theorem sum_map_zero (ls : List ℕ) : (ls.map (fun _ => (0 : ℕ))).sum = 0 := by
  induction ls with
  | nil => rfl
  | cons b ls ih => rw [List.map_cons, List.sum_cons, ih]

theorem sum_countP_eq_length {α : Type} (pairs : List α) (f : α → ℕ)
    (ls : List ℕ) (hnd : ls.Nodup) (hcomp : ∀ q ∈ pairs, f q ∈ ls) :
    (ls.map (fun p => pairs.countP (fun q => decide (f q = p)))).sum =
      pairs.length := by
  induction pairs with
  | nil =>
    rw [show (ls.map (fun p => List.countP (fun q => decide (f q = p)) [])) =
        ls.map (fun _ => 0) from List.map_congr_left (fun p _ => rfl)]
    rw [sum_map_zero]
    rfl
  | cons a pairs ih =>
    have hstep : (ls.map (fun p =>
        List.countP (fun q => decide (f q = p)) (a :: pairs))).sum =
        (ls.map (fun p => List.countP (fun q => decide (f q = p)) pairs +
          (if f a = p then 1 else 0))).sum := by
      congr 1
      refine List.map_congr_left (fun p _ => ?_)
      rw [List.countP_cons]
      congr 1
      by_cases h : f a = p
      · rw [if_pos h, if_pos (decide_eq_true h)]
      · rw [if_neg h, if_neg (by simpa using h)]
    rw [hstep, sum_map_add_nat, ih (fun q hq => hcomp q (List.mem_cons_of_mem a hq)),
      sum_map_ite_eq_one ls (f a) hnd (hcomp a (List.mem_cons_self a pairs)),
      List.length_cons]

theorem count2_eq_filter_true (y_true y_pred : List ℕ) (t p : ℕ) :
    count2 y_true y_pred t p =
      ((y_true.zip y_pred).filter (fun q => decide (q.1 = t))).countP
        (fun q => decide (q.2 = p)) := by
  rw [List.countP_filter]
  unfold count2
  congr 1
  funext q
  exact Bool.and_comm _ _

theorem count2_eq_filter_pred (y_true y_pred : List ℕ) (t p : ℕ) :
    count2 y_true y_pred t p =
      ((y_true.zip y_pred).filter (fun q => decide (q.2 = p))).countP
        (fun q => decide (q.1 = t)) := by
  rw [List.countP_filter]
  rfl

theorem snd_mem_presentLabels (y_true y_pred : List ℕ) (q : ℕ × ℕ)
    (hq : q ∈ y_true.zip y_pred) :
    q.2 ∈ presentLabels y_true y_pred := by
  obtain ⟨a, b⟩ := q
  rw [mem_presentLabels, List.mem_append]
  exact Or.inr (List.of_mem_zip hq).2

theorem fst_mem_presentLabels (y_true y_pred : List ℕ) (q : ℕ × ℕ)
    (hq : q ∈ y_true.zip y_pred) :
    q.1 ∈ presentLabels y_true y_pred := by
  obtain ⟨a, b⟩ := q
  rw [mem_presentLabels, List.mem_append]
  exact Or.inl (List.of_mem_zip hq).1

/-- Row `t` of the confusion matrix sums to the number of samples whose
true label is `t` (`cm[i, :].sum()`). -/
theorem sum_count2_row (y_true y_pred : List ℕ) (t : ℕ) :
    ((presentLabels y_true y_pred).map
        (fun p => count2 y_true y_pred t p)).sum =
      countTrueCls y_true y_pred t := by
  have h1 : ((presentLabels y_true y_pred).map
      (fun p => count2 y_true y_pred t p)).sum =
      ((presentLabels y_true y_pred).map (fun p =>
        ((y_true.zip y_pred).filter (fun q => decide (q.1 = t))).countP
          (fun q => decide (q.2 = p)))).sum := by
    congr 1
    exact List.map_congr_left (fun p _ => count2_eq_filter_true y_true y_pred t p)
  rw [h1, sum_countP_eq_length _ Prod.snd _ (presentLabels_nodup y_true y_pred)
    (fun q hq => snd_mem_presentLabels y_true y_pred q
      (List.mem_of_mem_filter hq))]
  rw [countTrueCls, List.countP_eq_length_filter]

/-- Column `p` of the confusion matrix sums to the number of samples
predicted as `p` (`cm[:, i].sum()`). -/
theorem sum_count2_col (y_true y_pred : List ℕ) (p : ℕ) :
    ((presentLabels y_true y_pred).map
        (fun t => count2 y_true y_pred t p)).sum =
      countPredCls y_true y_pred p := by
  have h1 : ((presentLabels y_true y_pred).map
      (fun t => count2 y_true y_pred t p)).sum =
      ((presentLabels y_true y_pred).map (fun t =>
        ((y_true.zip y_pred).filter (fun q => decide (q.2 = p))).countP
          (fun q => decide (q.1 = t)))).sum := by
    congr 1
    exact List.map_congr_left (fun t _ => count2_eq_filter_pred y_true y_pred t p)
  rw [h1, sum_countP_eq_length _ Prod.fst _ (presentLabels_nodup y_true y_pred)
    (fun q hq => fst_mem_presentLabels y_true y_pred q
      (List.mem_of_mem_filter hq))]
  rw [countPredCls, List.countP_eq_length_filter]

/-- The whole confusion matrix sums to the number of samples
(`cm.sum()`). -/
theorem sum_cmVal (y_true y_pred : List ℕ) :
    ((cmVal y_true y_pred).map List.sum).sum = (y_true.zip y_pred).length := by
  unfold cmVal
  rw [List.map_map]
  have h1 : ((presentLabels y_true y_pred).map
      (List.sum ∘ fun t => (presentLabels y_true y_pred).map
        (fun p => count2 y_true y_pred t p))).sum =
      ((presentLabels y_true y_pred).map
        (fun t => countTrueCls y_true y_pred t)).sum := by
    congr 1
    exact List.map_congr_left (fun t _ => sum_count2_row y_true y_pred t)
  rw [h1]
  exact sum_countP_eq_length _ Prod.fst _ (presentLabels_nodup y_true y_pred)
    (fun q hq => fst_mem_presentLabels y_true y_pred q hq)

theorem perClassEntry_eq (y_true y_pred : List ℕ) (n i : ℕ)
    (hn : 0 < n) (hcover : ∀ j < n, j ∈ y_true ++ y_pred) (hi : i < n) :
    perClassEntry (cmVal y_true y_pred)
      (((y_true.zip y_pred).length : ℕ) : ℤ) i =
      .ok (metricsAt y_true y_pred i) := by
  have hgetL : (presentLabels y_true y_pred)[i]? = some i :=
    getElem?_presentLabels y_true y_pred n i hn hcover hi
  have bindok : ∀ {α β : Type} (v : α) (f : α → Except PyError β),
      (Except.ok v >>= f) = f v := fun _ _ => rfl
  have hidxE : ∀ {α : Type} (a : α), idxE (some a) = .ok a :=
    fun _ => rfl
  have hcmi : (cmVal y_true y_pred)[i]? =
      some ((presentLabels y_true y_pred).map
        (fun p => count2 y_true y_pred i p)) := by
    rw [cmVal, List.getElem?_map, hgetL]
    rfl
  have hrowi : ((presentLabels y_true y_pred).map
      (fun p => count2 y_true y_pred i p))[i]? =
      some (count2 y_true y_pred i i) := by
    rw [List.getElem?_map, hgetL]
    rfl
  have hcol : (cmVal y_true y_pred).mapM (fun r => idxE r[i]?) =
      .ok ((presentLabels y_true y_pred).map
        (fun t => count2 y_true y_pred t i)) := by
    rw [cmVal, mapM_map]
    exact mapM_ok_of_forall _ _ _ (fun t _ => by
      rw [List.getElem?_map, hgetL]
      rfl)
  simp only [perClassEntry, hcmi, hrowi, hcol, hidxE, bindok,
    sum_count2_row, sum_count2_col]
  rfl

theorem calculate_per_class_metrics_eq (class_names : List String)
    (y_true y_pred : List ℕ)
    (hlen : y_true.length = y_pred.length)
    (hn : 0 < class_names.length)
    (hcover : ∀ j < class_names.length, j ∈ y_true ++ y_pred) :
    calculate_per_class_metrics class_names y_true y_pred =
      .ok (class_names.enum.map
        (fun ic => (ic.2, metricsAt y_true y_pred ic.1))) := by
  have bindok : ∀ {α β : Type} (v : α) (f : α → Except PyError β),
      (Except.ok v >>= f) = f v := fun _ _ => rfl
  simp only [calculate_per_class_metrics,
    confusion_matrix_ok y_true y_pred hlen, bindok, sum_cmVal]
  refine mapM_ok_of_forall _ _ _ (fun ic hic => ?_)
  have hlt : ic.1 < class_names.length := by
    obtain ⟨h2, -⟩ :=
      List.getElem?_eq_some.mp (List.mem_enum_iff_getElem?.mp hic)
    exact h2
  rw [perClassEntry_eq y_true y_pred class_names.length ic.1 hn hcover hlt]
  rfl

/-- C3 counterexample: with classes `["healthy", "diseased"]`, true
labels `[0]` and predictions `[0]`, the class `"diseased"` (index 1) has
zero predicted and zero true instances, yet `calculate_per_class_metrics`
raises an `IndexError`: sklearn's confusion matrix only covers the labels
present in the data, so it is 1×1 and `cm[1, 1]` is out of range. -/
theorem per_class_metrics_raises_on_absent_class :
    ([0] : List ℕ).countP (fun t => decide (t = 1)) = 0 ∧
    ([0] : List ℕ).countP (fun p => decide (p = 1)) = 0 ∧
    calculate_per_class_metrics ["healthy", "diseased"] [0] [0] =
      .error .indexError := by
  refine ⟨rfl, rfl, ?_⟩
  decide

/-- C3 (amended): provided every class of the evaluator's class list
occurs in the true or the predicted labels (so that sklearn's inferred
label set aligns with the class list), `calculate_per_class_metrics`
never raises; for a class with zero predicted instances precision,
recall and F1 are 0, for a class with zero true instances recall,
precision and F1 are 0, and specificity is 0 exactly when its
denominator is 0 (all samples truly belong to that class). -/
theorem per_class_metrics_no_raise_when_covered
    (class_names : List String) (y_true y_pred : List ℕ)
    (hlen : y_true.length = y_pred.length)
    (hn : 0 < class_names.length)
    (hcover : ∀ j < class_names.length, j ∈ y_true ++ y_pred) :
    ∃ res, calculate_per_class_metrics class_names y_true y_pred =
        .ok res ∧
      res.length = class_names.length ∧
      ∀ i, i < class_names.length →
        res[i]? = some (class_names[i]?.getD "",
          metricsAt y_true y_pred i) ∧
        (countPredCls y_true y_pred i = 0 →
          (metricsAt y_true y_pred i).precision = 0 ∧
          (metricsAt y_true y_pred i).recall_score = 0 ∧
          (metricsAt y_true y_pred i).f1_score = 0) ∧
        (countTrueCls y_true y_pred i = 0 →
          (metricsAt y_true y_pred i).recall_score = 0 ∧
          (metricsAt y_true y_pred i).precision = 0 ∧
          (metricsAt y_true y_pred i).f1_score = 0) ∧
        (countTrueCls y_true y_pred i = (y_true.zip y_pred).length →
          (metricsAt y_true y_pred i).specificity = 0) := by
  refine ⟨_, calculate_per_class_metrics_eq class_names y_true y_pred
    hlen hn hcover, ?_, ?_⟩
  · rw [List.length_map, List.enum_length]
  · intro i hi
    have htp_le_pred : countTP y_true y_pred i ≤ countPredCls y_true y_pred i :=
      List.countP_mono_left (fun q _ hq => by
        simp only [Bool.and_eq_true, decide_eq_true_eq] at hq
        exact decide_eq_true hq.2)
    have htp_le_true : countTP y_true y_pred i ≤ countTrueCls y_true y_pred i :=
      List.countP_mono_left (fun q _ hq => by
        simp only [Bool.and_eq_true, decide_eq_true_eq] at hq
        exact decide_eq_true hq.1)
    have htrue_le_len :
        countTrueCls y_true y_pred i ≤ (y_true.zip y_pred).length := by
      unfold countTrueCls
      exact List.countP_le_length _
    refine ⟨?_, ?_, ?_, ?_⟩
    · rw [List.getElem?_map, List.getElem?_enum,
        List.getElem?_eq_getElem hi]
      rfl
    · intro hzero
      have htp : countTP y_true y_pred i = 0 := by omega
      simp only [metricsAt, htp, hzero]
      norm_num
    · intro hzero
      have htp : countTP y_true y_pred i = 0 := by omega
      simp only [metricsAt, htp, hzero]
      rcases Nat.eq_zero_or_pos (countPredCls y_true y_pred i) with hp | hp
      · simp only [hp]
        norm_num
      · have hcond : (0 : ℤ) < (0 : ℤ) +
            ((countPredCls y_true y_pred i : ℤ) - 0) := by
          omega
        norm_num [hcond]
    · intro hall
      have h0 : ((y_true.zip y_pred).length : ℤ) -
          (countTP y_true y_pred i : ℤ) -
          ((countPredCls y_true y_pred i : ℤ) -
            (countTP y_true y_pred i : ℤ)) -
          ((countTrueCls y_true y_pred i : ℤ) -
            (countTP y_true y_pred i : ℤ)) +
          ((countPredCls y_true y_pred i : ℤ) -
            (countTP y_true y_pred i : ℤ)) =
          ((y_true.zip y_pred).length : ℤ) -
            (countTrueCls y_true y_pred i : ℤ) := by ring
      simp only [metricsAt]
      rw [if_neg]
      rw [h0, hall]
      omega

/-- Witness for the amended C3 on concrete label lists in which class 1
has zero true instances and full coverage holds. -/
theorem per_class_metrics_no_raise_witness :
    ([0, 0] : List ℕ).length = ([0, 1] : List ℕ).length ∧
    0 < (["healthy", "diseased"] : List String).length ∧
    (∀ j < (["healthy", "diseased"] : List String).length,
      j ∈ ([0, 0] : List ℕ) ++ [0, 1]) ∧
    ∃ res, calculate_per_class_metrics ["healthy", "diseased"] [0, 0]
        [0, 1] = .ok res ∧
      res.length = (["healthy", "diseased"] : List String).length ∧
      ∀ i, i < (["healthy", "diseased"] : List String).length →
        res[i]? = some ((["healthy", "diseased"] : List String)[i]?.getD "",
          metricsAt [0, 0] [0, 1] i) ∧
        (countPredCls [0, 0] [0, 1] i = 0 →
          (metricsAt [0, 0] [0, 1] i).precision = 0 ∧
          (metricsAt [0, 0] [0, 1] i).recall_score = 0 ∧
          (metricsAt [0, 0] [0, 1] i).f1_score = 0) ∧
        (countTrueCls [0, 0] [0, 1] i = 0 →
          (metricsAt [0, 0] [0, 1] i).recall_score = 0 ∧
          (metricsAt [0, 0] [0, 1] i).precision = 0 ∧
          (metricsAt [0, 0] [0, 1] i).f1_score = 0) ∧
        (countTrueCls [0, 0] [0, 1] i = (([0, 0] : List ℕ).zip
            ([0, 1] : List ℕ)).length →
          (metricsAt [0, 0] [0, 1] i).specificity = 0) :=
  ⟨rfl, by decide, by decide,
    per_class_metrics_no_raise_when_covered ["healthy", "diseased"]
      [0, 0] [0, 1] rfl (by decide) (by decide)⟩

/-- True labels of the C9 scenario: ten `healthy` then ten `diseased`. -/
def yt9 : List ℕ := [0, 0, 0, 0, 0, 0, 0, 0, 0, 0, 1, 1, 1, 1, 1, 1, 1, 1, 1, 1]

/-- Predictions of the C9 scenario, realising the confusion matrix
`[[8, 2], [1, 9]]`. -/
def yp9 : List ℕ := [0, 0, 0, 0, 0, 0, 0, 0, 1, 1, 0, 1, 1, 1, 1, 1, 1, 1, 1, 1]

set_option maxRecDepth 8000 in
/-- C9: on label sequences with confusion matrix `[[8, 2], [1, 9]]` over
`["healthy", "diseased"]`, the `"healthy"` entry of
`calculate_per_class_metrics` has precision `8/9 ≈ 0.889`, recall
`8/10 = 0.8` and F1 `16/19 ≈ 0.842`. -/
theorem per_class_metrics_scenario_healthy :
    confusion_matrix yt9 yp9 = .ok [[8, 2], [1, 9]] ∧
    ∃ res, calculate_per_class_metrics ["healthy", "diseased"] yt9 yp9 =
        .ok res ∧
      res[0]? = some ("healthy", metricsAt yt9 yp9 0) ∧
      (metricsAt yt9 yp9 0).precision = 8/9 ∧
      (metricsAt yt9 yp9 0).recall_score = 8/10 ∧
      (metricsAt yt9 yp9 0).f1_score = 16/19 ∧
      |(metricsAt yt9 yp9 0).f1_score - 842/1000| < 1/1000 := by
  have hcm : confusion_matrix yt9 yp9 = .ok [[8, 2], [1, 9]] := by decide
  have heq := calculate_per_class_metrics_eq ["healthy", "diseased"]
    yt9 yp9 (by decide) (by decide) (by decide)
  have htp : countTP yt9 yp9 0 = 8 := by decide
  have hpred : countPredCls yt9 yp9 0 = 9 := by decide
  have htrue : countTrueCls yt9 yp9 0 = 10 := by decide
  have hN : (yt9.zip yp9).length = 20 := by decide
  have hmetrics : (metricsAt yt9 yp9 0).precision = 8/9 ∧
      (metricsAt yt9 yp9 0).recall_score = 8/10 ∧
      (metricsAt yt9 yp9 0).f1_score = 16/19 := by
    simp only [metricsAt, htp, hpred, htrue, hN]
    norm_num
  refine ⟨hcm, _, heq, ?_, hmetrics.1, hmetrics.2.1, hmetrics.2.2, ?_⟩
  · rfl
  · rw [hmetrics.2.2]
    rw [abs_of_pos (by norm_num)]
    norm_num

/-! ## Label encodings and confidence calibration
(`backend/utils/evaluation.py`) -/

/-- A label array as the evaluation utilities receive it: either
index-encoded (a 1-D array of class indices) or one-hot/categorical
(a 2-D array with one score column per class). -/
inductive Labels where
  | indices : List ℕ → Labels
  | oneHot : List (List ℚ) → Labels
  deriving DecidableEq, Repr

/-- The normalisation `np.argmax(y, axis=1) if len(y.shape) > 1 else y`
used throughout `evaluation.py`. -/
def toClasses : Labels → List ℕ
  | .indices l => l
  | .oneHot m => m.map npArgmax

/-- `np.max` of one row (row known non-empty on all guarded paths). -/
def maxRow : List ℚ → ℚ
  | [] => 0
  | x :: xs => listMax x xs

/-- Result of `calculate_confidence_calibration`. -/
structure CalibrationResult where
  accuracies : List ℚ
  confidences : List ℚ
  expected_calibration_error : ℚ
  bin_boundaries : List ℚ
  deriving DecidableEq, Repr

/-- Body of the first loop of `calculate_confidence_calibration` for
one `(bin_lower, bin_upper)` pair: the `(accuracy, confidence)` pair
appended for bin `b`, with `(0, 0)` when `prop_in_bin > 0` fails. -/
def accConfPair (samples : List (ℕ × ℚ × ℕ)) (N : ℚ) (n_bins b : ℕ) :
    ℚ × ℚ :=
  let bin_lower : ℚ := (b : ℚ) / (n_bins : ℚ)
  let bin_upper : ℚ := ((b : ℚ) + 1) / (n_bins : ℚ)
  let in_bin := samples.filter (fun s =>
    decide (bin_lower < s.2.1) && decide (s.2.1 ≤ bin_upper))
  let prop_in_bin : ℚ := (in_bin.length : ℚ) / N
  if 0 < prop_in_bin then
    (((in_bin.filter (fun s => decide (s.1 = s.2.2))).length : ℚ) /
        (in_bin.length : ℚ),
      (in_bin.map (fun s => s.2.1)).sum / (in_bin.length : ℚ))
  else ((0 : ℚ), (0 : ℚ))

/-- Body of the second loop of `calculate_confidence_calibration`: the
summand `prop_in_bin * abs(accuracies[i] - confidences[i])` for bin
`b`. -/
def eceTerm (max_probs : List ℚ) (N : ℚ)
    (accuracies confidences : List ℚ) (n_bins b : ℕ) : ℚ :=
  let bin_lower : ℚ := (b : ℚ) / (n_bins : ℚ)
  let bin_upper : ℚ := ((b : ℚ) + 1) / (n_bins : ℚ)
  let in_bin := max_probs.filter (fun p =>
    decide (bin_lower < p) && decide (p ≤ bin_upper))
  let prop_in_bin : ℚ := (in_bin.length : ℚ) / N
  prop_in_bin * |accuracies.getD b 0 - confidences.getD b 0|

/-- `calculate_confidence_calibration(y_true, y_pred_proba, n_bins=10)`.
Malformed input — an empty probability array, a ragged or zero-width
row (numpy cannot reduce over axis 1), or a boolean sample mask whose
length disagrees with `y_true` — raises a `ValueError`-class numpy
error; on the embedded rationals the nan results that numpy would
propagate for such inputs do not exist, so these paths are errors.  The
well-formed path follows the source exactly: one loop filling the
per-bin accuracy and confidence lists (with `(0, 0)` for a bin holding
no predictions) and a second loop accumulating
`ece += prop_in_bin * abs(accuracies[i] - confidences[i])`. -/
def calculate_confidence_calibration (y_true : Labels)
    (y_pred_proba : List (List ℚ)) (n_bins : ℕ) :
    Except PyError CalibrationResult :=
  let y_true_classes := toClasses y_true
  if y_pred_proba = [] then .error .valueError
  else if ¬ (∀ row ∈ y_pred_proba, row ≠ [] ∧
      row.length = (y_pred_proba.headD []).length) then .error .valueError
  else if y_true_classes.length ≠ y_pred_proba.length then
    .error .valueError
  else
    let max_probs := y_pred_proba.map maxRow
    let pred_classes := y_pred_proba.map npArgmax
    let samples := y_true_classes.zip (max_probs.zip pred_classes)
    let N : ℚ := (max_probs.length : ℚ)
    let accConf := (List.range n_bins).map
      (fun b => accConfPair samples N n_bins b)
    let accuracies := accConf.map Prod.fst
    let confidences := accConf.map Prod.snd
    let ece : ℚ := ((List.range n_bins).map
      (fun b => eceTerm max_probs N accuracies confidences n_bins b)).sum
    .ok { accuracies := accuracies
          confidences := confidences
          expected_calibration_error := ece
          bin_boundaries := (List.range (n_bins + 1)).map
            (fun j => (j : ℚ) / (n_bins : ℚ)) }

/-- The samples whose top-class probability falls in bin `b` of
`n_bins` equal-width bins over `(0, 1]`, as
`(true class, top probability, predicted class)` triples. -/
def binSamples (yc : List ℕ) (mp : List ℚ) (pc : List ℕ)
    (n_bins b : ℕ) : List (ℕ × ℚ × ℕ) :=
  (yc.zip (mp.zip pc)).filter (fun s =>
    decide ((b : ℚ) / (n_bins : ℚ) < s.2.1) &&
      decide (s.2.1 ≤ ((b : ℚ) + 1) / (n_bins : ℚ)))

/-- Fraction of all predictions whose top probability falls in bin `b`
(the bin's population weight). -/
def binWeight (mp : List ℚ) (n_bins b : ℕ) : ℚ :=
  ((mp.filter (fun p => decide ((b : ℚ) / (n_bins : ℚ) < p) &&
      decide (p ≤ ((b : ℚ) + 1) / (n_bins : ℚ)))).length : ℚ) /
    (mp.length : ℚ)

/-- Fraction of correct predictions within bin `b`; `0` for an empty
bin. -/
def binAccuracy (yc : List ℕ) (mp : List ℚ) (pc : List ℕ)
    (n_bins b : ℕ) : ℚ :=
  let inb := binSamples yc mp pc n_bins b
  if 0 < inb.length then
    ((inb.filter (fun s => decide (s.1 = s.2.2))).length : ℚ) /
      (inb.length : ℚ)
  else 0

/-- Mean top-class probability within bin `b`; `0` for an empty bin. -/
def binConfidence (yc : List ℕ) (mp : List ℚ) (pc : List ℕ)
    (n_bins b : ℕ) : ℚ :=
  let inb := binSamples yc mp pc n_bins b
  if 0 < inb.length then
    (inb.map (fun s => s.2.1)).sum / (inb.length : ℚ)
  else 0

theorem length_filter_zip_snd (yc : List ℕ) (mp : List ℚ) (pc : List ℕ)
    (g : ℚ → Bool) (h1 : yc.length = mp.length)
    (h2 : pc.length = mp.length) :
    ((yc.zip (mp.zip pc)).filter (fun s => g s.2.1)).length =
      (mp.filter g).length := by
  induction mp generalizing yc pc with
  | nil =>
    rw [List.length_nil] at h1 h2
    rw [List.eq_nil_of_length_eq_zero h1, List.eq_nil_of_length_eq_zero h2]
    rfl
  | cons m mp ih =>
    match yc, pc with
    | [], _ => exact absurd h1 (by simp)
    | _, [] => exact absurd h2 (by simp)
    | y :: yc, p :: pc =>
      rw [List.length_cons, List.length_cons] at h1 h2
      have h1' : yc.length = mp.length := by omega
      have h2' : pc.length = mp.length := by omega
      rw [List.zip_cons_cons, List.zip_cons_cons, List.filter_cons,
        List.filter_cons]
      by_cases hg : g m
      · simp only [hg, if_pos, List.length_cons, ih yc pc h1' h2']
      · simp only [hg, Bool.false_eq_true, if_false, ih yc pc h1' h2']

theorem div_pos_iff_nat (len : ℕ) (N : ℚ) (hN : 0 < N) :
    (0 < (len : ℚ) / N) ↔ 0 < len := by
  constructor
  · intro h
    rcases Nat.eq_zero_or_pos len with h0 | h1
    · rw [h0] at h
      norm_num at h
    · exact h1
  · intro h
    exact div_pos (by exact_mod_cast h) hN

theorem getD_map_range (n b : ℕ) (hb : b < n) (f : ℕ → ℚ) (d : ℚ) :
    (((List.range n).map f).getD b d) = f b := by
  rw [List.getD_eq_getElem?_getD, List.getElem?_map, List.getElem?_range hb]
  rfl

theorem accConfPair_eq (yc : List ℕ) (mp : List ℚ) (pc : List ℕ)
    (n_bins b : ℕ) (hN : 0 < (mp.length : ℚ)) :
    accConfPair (yc.zip (mp.zip pc)) (mp.length : ℚ) n_bins b =
      (binAccuracy yc mp pc n_bins b, binConfidence yc mp pc n_bins b) := by
  unfold accConfPair binAccuracy binConfidence binSamples
  by_cases hpos : 0 < ((yc.zip (mp.zip pc)).filter (fun s =>
      decide ((b : ℚ) / (n_bins : ℚ) < s.2.1) &&
        decide (s.2.1 ≤ ((b : ℚ) + 1) / (n_bins : ℚ)))).length
  · rw [if_pos ((div_pos_iff_nat _ _ hN).mpr hpos), if_pos hpos, if_pos hpos]
  · rw [if_neg (fun h => hpos ((div_pos_iff_nat _ _ hN).mp h)),
      if_neg hpos, if_neg hpos]

theorem eceTerm_eq (yc : List ℕ) (mp : List ℚ) (pc : List ℕ)
    (n_bins b : ℕ) (hb : b < n_bins) :
    eceTerm mp (mp.length : ℚ)
      ((List.range n_bins).map (fun b => binAccuracy yc mp pc n_bins b))
      ((List.range n_bins).map (fun b => binConfidence yc mp pc n_bins b))
      n_bins b =
      binWeight mp n_bins b *
        |binAccuracy yc mp pc n_bins b - binConfidence yc mp pc n_bins b| := by
  unfold eceTerm binWeight
  rw [getD_map_range n_bins b hb, getD_map_range n_bins b hb]

set_option maxHeartbeats 800000 in
/-- C7: on every well-formed input (non-empty rectangular probability
matrix with at least one column, as many true labels as probability
rows), the Expected Calibration Error returned by
`calculate_confidence_calibration` equals the sum over all bins of the
fraction of predictions in the bin times the absolute gap between the
bin's accuracy and its mean confidence; an empty bin contributes `0` to
the per-bin accuracy list, `0` to the confidence list, and `0` to the
weighted error sum. -/
theorem calibration_ece_weighted_gap (y_true : Labels)
    (y_pred_proba : List (List ℚ)) (n_bins : ℕ)
    (hne : y_pred_proba ≠ [])
    (hrows : ∀ row ∈ y_pred_proba, row ≠ [] ∧
      row.length = (y_pred_proba.headD []).length)
    (hlen : (toClasses y_true).length = y_pred_proba.length) :
    ∃ r, calculate_confidence_calibration y_true y_pred_proba n_bins =
        .ok r ∧
      r.accuracies = (List.range n_bins).map (fun b =>
        binAccuracy (toClasses y_true) (y_pred_proba.map maxRow)
          (y_pred_proba.map npArgmax) n_bins b) ∧
      r.confidences = (List.range n_bins).map (fun b =>
        binConfidence (toClasses y_true) (y_pred_proba.map maxRow)
          (y_pred_proba.map npArgmax) n_bins b) ∧
      r.expected_calibration_error = ((List.range n_bins).map (fun b =>
        binWeight (y_pred_proba.map maxRow) n_bins b *
          |binAccuracy (toClasses y_true) (y_pred_proba.map maxRow)
              (y_pred_proba.map npArgmax) n_bins b -
            binConfidence (toClasses y_true) (y_pred_proba.map maxRow)
              (y_pred_proba.map npArgmax) n_bins b|)).sum ∧
      (∀ b, (binSamples (toClasses y_true) (y_pred_proba.map maxRow)
            (y_pred_proba.map npArgmax) n_bins b).length = 0 →
        binAccuracy (toClasses y_true) (y_pred_proba.map maxRow)
            (y_pred_proba.map npArgmax) n_bins b = 0 ∧
        binConfidence (toClasses y_true) (y_pred_proba.map maxRow)
            (y_pred_proba.map npArgmax) n_bins b = 0 ∧
        binWeight (y_pred_proba.map maxRow) n_bins b = 0) := by
  have hN : (0 : ℚ) < ((y_pred_proba.map maxRow).length : ℚ) := by
    rw [List.length_map]
    exact_mod_cast List.length_pos.mpr hne
  have hlen1 : (toClasses y_true).length =
      (y_pred_proba.map maxRow).length := by
    rw [List.length_map]
    exact hlen
  have hlen2 : (y_pred_proba.map npArgmax).length =
      (y_pred_proba.map maxRow).length := by
    rw [List.length_map, List.length_map]
  have haccConf : (List.range n_bins).map (fun b =>
      accConfPair ((toClasses y_true).zip
        ((y_pred_proba.map maxRow).zip (y_pred_proba.map npArgmax)))
        ((y_pred_proba.map maxRow).length : ℚ) n_bins b) =
      (List.range n_bins).map (fun b =>
        (binAccuracy (toClasses y_true) (y_pred_proba.map maxRow)
          (y_pred_proba.map npArgmax) n_bins b,
        binConfidence (toClasses y_true) (y_pred_proba.map maxRow)
          (y_pred_proba.map npArgmax) n_bins b)) :=
    List.map_congr_left (fun b _ => accConfPair_eq _ _ _ n_bins b hN)
  have hne3 : ¬ ((toClasses y_true).length ≠ y_pred_proba.length) :=
    fun h => h hlen
  simp only [calculate_confidence_calibration, if_neg hne,
    if_neg (not_not_intro hrows), if_neg hne3, haccConf,
    List.map_map]
  refine ⟨_, rfl, ?_, ?_, ?_, ?_⟩
  · rfl
  · rfl
  · show ((List.range n_bins).map _).sum = _
    congr 1
    refine List.map_congr_left (fun b hb => ?_)
    have hb' : b < n_bins := List.mem_range.mp hb
    have heq := eceTerm_eq (toClasses y_true) (y_pred_proba.map maxRow)
      (y_pred_proba.map npArgmax) n_bins b hb'
    rw [← heq]
    rfl
  · intro b hzero
    refine ⟨?_, ?_, ?_⟩
    · rw [binAccuracy, if_neg (by omega)]
    · rw [binConfidence, if_neg (by omega)]
    · rw [binWeight]
      have hcnt := length_filter_zip_snd (toClasses y_true)
        (y_pred_proba.map maxRow) (y_pred_proba.map npArgmax)
        (fun p => decide ((b : ℚ) / (n_bins : ℚ) < p) &&
          decide (p ≤ ((b : ℚ) + 1) / (n_bins : ℚ))) hlen1 hlen2
      have hz : ((y_pred_proba.map maxRow).filter
          (fun p => decide ((b : ℚ) / (n_bins : ℚ) < p) &&
            decide (p ≤ ((b : ℚ) + 1) / (n_bins : ℚ)))).length = 0 := by
        rw [← hcnt]
        exact hzero
      rw [hz]
      norm_num

/-- Witness for C7 on a concrete one-hot truth array and a 2×2 integer
score matrix. -/
theorem calibration_ece_weighted_gap_witness :
    ([[1, 0], [0, 2]] : List (List ℚ)) ≠ [] ∧
    (∀ row ∈ ([[1, 0], [0, 2]] : List (List ℚ)), row ≠ [] ∧
      row.length = (([[1, 0], [0, 2]] : List (List ℚ)).headD []).length) ∧
    (toClasses (.indices [0, 1])).length =
      ([[1, 0], [0, 2]] : List (List ℚ)).length ∧
    ∃ r, calculate_confidence_calibration (.indices [0, 1])
        [[1, 0], [0, 2]] 10 = .ok r ∧
      r.accuracies = (List.range 10).map (fun b =>
        binAccuracy (toClasses (.indices [0, 1]))
          (([[1, 0], [0, 2]] : List (List ℚ)).map maxRow)
          (([[1, 0], [0, 2]] : List (List ℚ)).map npArgmax) 10 b) ∧
      r.confidences = (List.range 10).map (fun b =>
        binConfidence (toClasses (.indices [0, 1]))
          (([[1, 0], [0, 2]] : List (List ℚ)).map maxRow)
          (([[1, 0], [0, 2]] : List (List ℚ)).map npArgmax) 10 b) ∧
      r.expected_calibration_error = ((List.range 10).map (fun b =>
        binWeight (([[1, 0], [0, 2]] : List (List ℚ)).map maxRow) 10 b *
          |binAccuracy (toClasses (.indices [0, 1]))
              (([[1, 0], [0, 2]] : List (List ℚ)).map maxRow)
              (([[1, 0], [0, 2]] : List (List ℚ)).map npArgmax) 10 b -
            binConfidence (toClasses (.indices [0, 1]))
              (([[1, 0], [0, 2]] : List (List ℚ)).map maxRow)
              (([[1, 0], [0, 2]] : List (List ℚ)).map npArgmax) 10 b|)).sum ∧
      (∀ b, (binSamples (toClasses (.indices [0, 1]))
            (([[1, 0], [0, 2]] : List (List ℚ)).map maxRow)
            (([[1, 0], [0, 2]] : List (List ℚ)).map npArgmax) 10 b).length
            = 0 →
        binAccuracy (toClasses (.indices [0, 1]))
            (([[1, 0], [0, 2]] : List (List ℚ)).map maxRow)
            (([[1, 0], [0, 2]] : List (List ℚ)).map npArgmax) 10 b = 0 ∧
        binConfidence (toClasses (.indices [0, 1]))
            (([[1, 0], [0, 2]] : List (List ℚ)).map maxRow)
            (([[1, 0], [0, 2]] : List (List ℚ)).map npArgmax) 10 b = 0 ∧
        binWeight (([[1, 0], [0, 2]] : List (List ℚ)).map maxRow) 10 b
          = 0) :=
  ⟨by decide, by decide, by decide,
    calibration_ece_weighted_gap (.indices [0, 1]) [[1, 0], [0, 2]] 10
      (by decide) (by decide) (by decide)⟩

/-! ## `evaluate_predictions` and ROC curves
(`backend/utils/evaluation.py`) -/

/-- `np.argmax(y, axis=1)` as `calculate_roc_curves` applies it to
`y_true` unconditionally: on a 1-D (index-encoded) array numpy raises
`AxisError` because axis 1 does not exist. -/
def argmaxAxis1 : Labels → Except PyError (List ℕ)
  | .indices _ => .error .axisError
  | .oneHot m => .ok (m.map npArgmax)

/-- `sklearn.preprocessing.label_binarize(y, classes=range(n))`: one
indicator column per class for three or more classes; a single column
for the binary case; a zero column when only one class exists. -/
def label_binarize (y : List ℕ) (n : ℕ) : List (List ℕ) :=
  if n = 1 then y.map (fun _ => [0])
  else if n = 2 then y.map (fun c => [if c = 1 then 1 else 0])
  else y.map (fun c => (List.range n).map (fun j => if c = j then 1 else 0))

/-- The sklearn ROC primitives used by `calculate_roc_curves`:
`roc_curve` returns the false-positive and true-positive rate arrays
(the thresholds the source discards), and `auc` integrates them.  The
embedding treats them as opaque total functions — their documented
behaviour on binary indicator labels. -/
structure SklearnROC where
  roc_curve : List ℕ → List ℚ → List ℚ × List ℚ
  auc : List ℚ → List ℚ → ℚ

/-- `m[:, i]` — numpy column extraction, raising `IndexError` when a
row is too short. -/
def getColumn {γ : Type} (m : List (List γ)) (i : ℕ) :
    Except PyError (List γ) :=
  m.mapM (fun row => idxE row[i]?)

/-- Value of the `roc_curves` entry of the results dictionary: per-class
`(fpr, tpr, auc)` triples indexed `0 .. num_classes - 1` plus the
micro-average entry. -/
structure RocData where
  perClass : List (List ℚ × List ℚ × ℚ)
  micro : List ℚ × List ℚ × ℚ
  deriving DecidableEq

/-- `ModelEvaluator.calculate_roc_curves(y_true, y_pred_proba)`:
```
y_true_bin = label_binarize(np.argmax(y_true, axis=1), classes=range(self.num_classes))
for i in range(self.num_classes):
    fpr[i], tpr[i], _ = roc_curve(y_true_bin[:, i], y_pred_proba[:, i])
    roc_auc[i] = auc(fpr[i], tpr[i])
fpr["micro"], tpr["micro"], _ = roc_curve(y_true_bin.ravel(), y_pred_proba.ravel())
```
`roc_curve` on arrays of mismatched lengths is a sklearn
`ValueError`. -/
def calculate_roc_curves (sk : SklearnROC) (num_classes : ℕ)
    (y_true : Labels) (y_pred_proba : List (List ℚ)) :
    Except PyError RocData := do
  let y_true_classes ← argmaxAxis1 y_true
  let y_true_bin := label_binarize y_true_classes num_classes
  if y_true_bin.length ≠ y_pred_proba.length then throw .valueError
  else do
    let perClass ← (List.range num_classes).mapM (fun i => do
      let cb ← getColumn y_true_bin i
      let pb ← getColumn y_pred_proba i
      let (f, t) := sk.roc_curve cb pb
      pure (f, t, sk.auc f t))
    let (fm, tm) := sk.roc_curve y_true_bin.flatten y_pred_proba.flatten
    pure ⟨perClass, (fm, tm, sk.auc fm tm)⟩

/-- sklearn per-class precision (`zero_division` default: 0). -/
def clsPrecision (yt yp : List ℕ) (c : ℕ) : ℚ :=
  if 0 < countPredCls yt yp c then
    (countTP yt yp c : ℚ) / (countPredCls yt yp c : ℚ)
  else 0

/-- sklearn per-class recall (`zero_division` default: 0). -/
def clsRecall (yt yp : List ℕ) (c : ℕ) : ℚ :=
  if 0 < countTrueCls yt yp c then
    (countTP yt yp c : ℚ) / (countTrueCls yt yp c : ℚ)
  else 0

/-- sklearn per-class F1 score. -/
def clsF1 (yt yp : List ℕ) (c : ℕ) : ℚ :=
  if 0 < clsPrecision yt yp c + clsRecall yt yp c then
    2 * clsPrecision yt yp c * clsRecall yt yp c /
      (clsPrecision yt yp c + clsRecall yt yp c)
  else 0

/-- `average='weighted'`: support-weighted mean of a per-class score
over the labels present in the data. -/
def weightedAvg (yt yp : List ℕ) (f : ℕ → ℚ) : ℚ :=
  ((presentLabels yt yp).map (fun c =>
    ((countTrueCls yt yp c : ℚ) / (yt.length : ℚ)) * f c)).sum

/-- The results dictionary of `ModelEvaluator.evaluate_predictions`. -/
structure EvalResults where
  y_true_classes : List ℕ
  y_pred_classes : List ℕ
  accuracy : ℚ
  precision : ℚ
  recall_score : ℚ
  f1_score : ℚ
  classification_report : List (String × ℚ × ℚ × ℚ × ℕ)
  cm : List (List ℕ)
  roc_curves : Option RocData
  deriving DecidableEq

/-- `ModelEvaluator.evaluate_predictions(y_true, y_pred,
y_pred_proba=None)`: converts one-hot inputs to class indices via
`np.argmax(·, axis=1)` (index-encoded inputs pass through), computes
accuracy and weighted precision/recall/F1, the classification report
(sklearn raises when the number of distinct labels present differs from
`len(target_names)`), the confusion matrix, and — only when
probabilities are supplied — the ROC data via `calculate_roc_curves`,
which receives the *original* `y_true`.  sklearn raises `ValueError`
for mismatched or empty label arrays. -/
def evaluate_predictions (sk : SklearnROC) (class_names : List String)
    (y_true y_pred : Labels) (y_pred_proba : Option (List (List ℚ))) :
    Except PyError EvalResults := do
  let yt := toClasses y_true
  let yp := toClasses y_pred
  if yt.length ≠ yp.length then throw .valueError
  else if yt = [] then throw .valueError
  else do
    let accuracy : ℚ :=
      ((yt.zip yp).countP (fun q => decide (q.1 = q.2)) : ℚ) /
        (yt.length : ℚ)
    let precision := weightedAvg yt yp (clsPrecision yt yp)
    let recall_val := weightedAvg yt yp (clsRecall yt yp)
    let f1 := weightedAvg yt yp (clsF1 yt yp)
    if (presentLabels yt yp).length ≠ class_names.length then
      throw .valueError
    else do
      let report := (class_names.zip (presentLabels yt yp)).map (fun nc =>
        (nc.1, clsPrecision yt yp nc.2, clsRecall yt yp nc.2,
          clsF1 yt yp nc.2, countTrueCls yt yp nc.2))
      let cm ← confusion_matrix yt yp
      match y_pred_proba with
      | none =>
        pure { y_true_classes := yt
               y_pred_classes := yp
               accuracy := accuracy
               precision := precision
               recall_score := recall_val
               f1_score := f1
               classification_report := report
               cm := cm
               roc_curves := none }
      | some proba => do
        let rd ← calculate_roc_curves sk class_names.length y_true proba
        pure { y_true_classes := yt
               y_pred_classes := yp
               accuracy := accuracy
               precision := precision
               recall_score := recall_val
               f1_score := f1
               classification_report := report
               cm := cm
               roc_curves := some rd }

/-- The results record of a successful `evaluate_predictions` call,
with the given ROC payload. -/
def evalOkValue (class_names : List String) (y_true y_pred : Labels)
    (roc : Option RocData) : EvalResults :=
  let yt := toClasses y_true
  let yp := toClasses y_pred
  { y_true_classes := yt
    y_pred_classes := yp
    accuracy := ((yt.zip yp).countP (fun q => decide (q.1 = q.2)) : ℚ) /
      (yt.length : ℚ)
    precision := weightedAvg yt yp (clsPrecision yt yp)
    recall_score := weightedAvg yt yp (clsRecall yt yp)
    f1_score := weightedAvg yt yp (clsF1 yt yp)
    classification_report :=
      (class_names.zip (presentLabels yt yp)).map (fun nc =>
        (nc.1, clsPrecision yt yp nc.2, clsRecall yt yp nc.2,
          clsF1 yt yp nc.2, countTrueCls yt yp nc.2))
    cm := cmVal yt yp
    roc_curves := roc }

theorem getColumn_ok {γ : Type} (dflt : γ) (m : List (List γ)) (i : ℕ)
    (h : ∀ row ∈ m, i < row.length) :
    getColumn m i = .ok (m.map (fun row => row.getD i dflt)) := by
  unfold getColumn
  refine mapM_ok_of_forall _ _ _ (fun row hrow => ?_)
  have hget : i < row.length := h row hrow
  rw [List.getElem?_eq_getElem hget]
  have : row.getD i dflt = row[i] := by
    rw [List.getD_eq_getElem?_getD, List.getElem?_eq_getElem hget]
    rfl
  rw [this]
  rfl

theorem calculate_roc_curves_ok (sk : SklearnROC) (n : ℕ)
    (mat : List (List ℚ)) (proba : List (List ℚ))
    (hn : 2 < n) (hlenp : proba.length = mat.length)
    (hrows : ∀ row ∈ proba, row.length = n) :
    ∃ rd, calculate_roc_curves sk n (.oneHot mat) proba = .ok rd ∧
      rd.perClass.length = n := by
  have bindok : ∀ {α β : Type} (v : α) (f : α → Except PyError β),
      (Except.ok v >>= f) = f v := fun _ _ => rfl
  have hbin : label_binarize (mat.map npArgmax) n =
      (mat.map npArgmax).map (fun c =>
        (List.range n).map (fun j => if c = j then 1 else 0)) := by
    unfold label_binarize
    rw [if_neg (by omega), if_neg (by omega)]
  have hbinlen : ¬ ((label_binarize (mat.map npArgmax) n).length ≠
      proba.length) := by
    rw [hbin, List.length_map, List.length_map, hlenp]
    exact fun h => h rfl
  have hbinrows : ∀ row ∈ label_binarize (mat.map npArgmax) n,
      row.length = n := by
    rw [hbin]
    intro row hrow
    obtain ⟨c, -, rfl⟩ := List.mem_map.mp hrow
    rw [List.length_map, List.length_range]
  have hperclass : (List.range n).mapM (fun i => do
      let cb ← getColumn (label_binarize (mat.map npArgmax) n) i
      let pb ← getColumn proba i
      let (f, t) := sk.roc_curve cb pb
      pure (f, t, sk.auc f t)) =
      .ok ((List.range n).map (fun i =>
        let cb := (label_binarize (mat.map npArgmax) n).map
          (fun row => row.getD i 0)
        let pb := proba.map (fun row => row.getD i 0)
        ((sk.roc_curve cb pb).1, (sk.roc_curve cb pb).2,
          sk.auc (sk.roc_curve cb pb).1 (sk.roc_curve cb pb).2))) := by
    refine mapM_ok_of_forall _ _ _ (fun i hi => ?_)
    have hi' : i < n := List.mem_range.mp hi
    rw [getColumn_ok 0 _ i (fun row hrow => by rw [hbinrows row hrow]; exact hi'),
      bindok,
      getColumn_ok 0 proba i (fun row hrow => by rw [hrows row hrow]; exact hi'),
      bindok]
    rfl
  refine ⟨⟨(List.range n).map (fun i =>
      let cb := (label_binarize (mat.map npArgmax) n).map
        (fun row => row.getD i 0)
      let pb := proba.map (fun row => row.getD i 0)
      ((sk.roc_curve cb pb).1, (sk.roc_curve cb pb).2,
        sk.auc (sk.roc_curve cb pb).1 (sk.roc_curve cb pb).2)),
    ((sk.roc_curve (label_binarize (mat.map npArgmax) n).flatten
        proba.flatten).1,
      (sk.roc_curve (label_binarize (mat.map npArgmax) n).flatten
        proba.flatten).2,
      sk.auc
        (sk.roc_curve (label_binarize (mat.map npArgmax) n).flatten
          proba.flatten).1
        (sk.roc_curve (label_binarize (mat.map npArgmax) n).flatten
          proba.flatten).2)⟩, ?_, ?_⟩
  · unfold calculate_roc_curves
    rw [show argmaxAxis1 (.oneHot mat) = Except.ok (mat.map npArgmax)
      from rfl, bindok, if_neg hbinlen, hperclass, bindok]
    rfl
  · rw [List.length_map, List.length_range]

/-- A concrete instantiation of the sklearn ROC primitives used by the
C6 counterexample and witness. -/
def demoSk : SklearnROC := ⟨fun _ _ => ([0, 1], [0, 1]), fun _ _ => 1⟩

/-- C6 counterexample: with index-encoded true labels and probabilities
supplied, `evaluate_predictions` fails — `calculate_roc_curves` applies
`np.argmax(y_true, axis=1)` unconditionally, which on a 1-D array
raises `AxisError` — even though the very same call without
probabilities succeeds. -/
theorem evaluate_predictions_roc_fails_on_index_true :
    evaluate_predictions demoSk ["a", "b", "c"] (.indices [0, 1, 2])
      (.indices [0, 1, 2]) (some [[1, 0, 0], [0, 1, 0], [0, 0, 1]]) =
      .error .axisError ∧
    exceptOk (evaluate_predictions demoSk ["a", "b", "c"]
      (.indices [0, 1, 2]) (.indices [0, 1, 2]) none) = true := by
  constructor
  · decide
  · decide

/-- C6 (amended): `evaluate_predictions` accepts one-hot or
index-encoded labels for both arguments and normalises both to class
indices; when probabilities are supplied it additionally computes
per-class one-vs-rest ROC/AUC (one triple per class) plus a
micro-average — but only for one-hot (2-D) true labels, since the ROC
step applies `np.argmax(y_true, axis=1)` unconditionally.  Conditions:
matching label counts, at least one sample, all classes present in the
data (the classification-report check), and for the ROC branch a
rectangular probability matrix with one column per class and at least
three classes (sklearn's `label_binarize` special-cases two). -/
theorem evaluate_predictions_amended_spec (sk : SklearnROC)
    (class_names : List String) (y_true y_pred : Labels)
    (y_pred_proba : Option (List (List ℚ)))
    (hlen : (toClasses y_true).length = (toClasses y_pred).length)
    (hne : toClasses y_true ≠ [])
    (hlab : (presentLabels (toClasses y_true) (toClasses y_pred)).length =
      class_names.length)
    (hproba : ∀ m, y_pred_proba = some m →
      (∃ mat, y_true = .oneHot mat) ∧ 2 < class_names.length ∧
      m.length = (toClasses y_true).length ∧
      ∀ row ∈ m, row.length = class_names.length) :
    ∃ res, evaluate_predictions sk class_names y_true y_pred
        y_pred_proba = .ok res ∧
      res.y_true_classes = toClasses y_true ∧
      res.y_pred_classes = toClasses y_pred ∧
      (y_pred_proba = none → res.roc_curves = none) ∧
      (∀ m, y_pred_proba = some m → ∃ rd, res.roc_curves = some rd ∧
        rd.perClass.length = class_names.length) := by
  have bindok : ∀ {α β : Type} (v : α) (f : α → Except PyError β),
      (Except.ok v >>= f) = f v := fun _ _ => rfl
  have hg1 : ¬ ((toClasses y_true).length ≠ (toClasses y_pred).length) :=
    fun h => h hlen
  have hg3 : ¬ ((presentLabels (toClasses y_true)
      (toClasses y_pred)).length ≠ class_names.length) := fun h => h hlab
  cases y_pred_proba with
  | none =>
    refine ⟨evalOkValue class_names y_true y_pred none, ?_, rfl, rfl,
      fun _ => rfl, fun m hm => absurd hm (by simp)⟩
    simp only [evaluate_predictions, if_neg hg1, if_neg hne,
      if_neg hg3, confusion_matrix_ok _ _ hlen, bindok]
    rfl
  | some m =>
    obtain ⟨⟨mat, rfl⟩, hn, hlenp, hrows⟩ := hproba m rfl
    obtain ⟨rd, hrd, hrdlen⟩ := calculate_roc_curves_ok sk
      class_names.length mat m hn
      (by rw [hlenp]; rw [show toClasses (.oneHot mat) = mat.map npArgmax
        from rfl, List.length_map]) hrows
    refine ⟨evalOkValue class_names (.oneHot mat) y_pred (some rd), ?_,
      rfl, rfl, fun h => absurd h (by simp),
      fun m' hm' => ⟨rd, rfl, hrdlen⟩⟩
    simp only [evaluate_predictions, if_neg hg1, if_neg hne,
      if_neg hg3, confusion_matrix_ok _ _ hlen, bindok, hrd]
    rfl

/-- One-hot truth matrix used by the C6 witness. -/
def oneHot3 : List (List ℚ) := [[1, 0, 0], [0, 1, 0], [0, 0, 1]]

/-- Witness for the amended C6: one-hot true labels, index-encoded
predictions, probabilities supplied, three classes. -/
theorem evaluate_predictions_amended_witness :
    (toClasses (.oneHot oneHot3)).length =
      (toClasses (.indices [0, 1, 2])).length ∧
    toClasses (.oneHot oneHot3) ≠ [] ∧
    (presentLabels (toClasses (.oneHot oneHot3))
      (toClasses (.indices [0, 1, 2]))).length =
      (["a", "b", "c"] : List String).length ∧
    ∃ res, evaluate_predictions demoSk ["a", "b", "c"] (.oneHot oneHot3)
        (.indices [0, 1, 2]) (some oneHot3) = .ok res ∧
      res.y_true_classes = toClasses (.oneHot oneHot3) ∧
      res.y_pred_classes = toClasses (.indices [0, 1, 2]) ∧
      ((some oneHot3 : Option (List (List ℚ))) = none →
        res.roc_curves = none) ∧
      (∀ m, (some oneHot3 : Option (List (List ℚ))) = some m →
        ∃ rd, res.roc_curves = some rd ∧
          rd.perClass.length = (["a", "b", "c"] : List String).length) :=
  ⟨by decide, by decide, by decide,
    evaluate_predictions_amended_spec demoSk ["a", "b", "c"]
      (.oneHot oneHot3) (.indices [0, 1, 2]) (some oneHot3)
      (by decide) (by decide) (by decide)
      (fun m hm => by
        cases hm
        exact ⟨⟨oneHot3, rfl⟩, by decide, by decide, by decide⟩)⟩

end VerdantAssist
